import Mathlib

/-!
Verification of the mangatek-api scraper (`app.py`) against its design
specification.  The definitions below are a shallow embedding of the
relevant parts of `app.py`; theorems settle the spec's claims about them.
-/

namespace Mangatek

/-! ## Configuration constants (app.py lines 23-35, default environment values) -/

/-- `BASE = os.getenv("MANGATEK_BASE", "https://mangatek.com")` (default value). -/
def BASE : String := "https://mangatek.com"

/-- The fixed header mapping `HEADERS` (app.py lines 32-35, default `DEFAULT_UA`).
This is the only client identity the program ever presents. -/
def HEADERS : List (String × String) :=
  [("User-Agent", "Mozilla/5.0 (Windows NT 10.0; Win64; x64) AppleWebKit/537.36 Chrome/120 Safari/537.36"),
   ("Accept-Language", "en-US,en;q=0.9")]

/-! ## The fetch orchestrator `fetch_html` (app.py lines 180-215)

`fetch_html` calls three fetchers in a fixed textual order:
Playwright (rendering, only when `USE_PLAYWRIGHT`), then httpx
(lightweight), then cloudscraper (challenge-solving).  Each fetcher either
returns a body string (`r.text`) or raises; `fetch_html` catches every
exception, remembers it in `last_exc`, and moves on.  A returned body is
accepted only when `html and len(html) > 50`; otherwise the function falls
through to the next strategy without touching `last_exc`.  When no strategy
yields an acceptable body it raises
`HTTPException(502, f"Fetching failed. last={str(last_exc)}")`.

We model each fetcher's behaviour at the given URL as a `StratResult`
oracle (what the fetcher would do if invoked), so `fetch_html` becomes a
pure function of the flag and the three oracles.  The attempts actually
performed are recorded, together with the header set each one presents
(always `HEADERS` in the source: lines 125, 158, 173). -/

/-- The three acquisition strategies of the spec, named after their roles. -/
inductive Strat
  | rendering      -- Playwright browser rendering (`fetch_page_playwright`)
  | lightweight    -- plain httpx request (`fetch_page_httpx`)
  | challenge      -- cloudscraper challenge solver (`fetch_page_cloudscraper_sync`)
deriving DecidableEq, BEq, Repr

/-- Cost rank of a strategy, in the spec's ascending cost order
(Lightweight → Rendering → Challenge-Solving). -/
def stratCost : Strat → Nat
  | .lightweight => 0
  | .rendering => 1
  | .challenge => 2

/-- What one fetcher does when invoked on the URL: return a body string
(`r.text`, transport success) or raise an exception with a message. -/
inductive StratResult
  | ok (body : String)
  | exc (detail : String)
deriving DecidableEq, Repr

/-- One attempt performed by the orchestrator: which strategy ran and which
header set (identity) it presented. -/
structure Attempt where
  strat : Strat
  headers : List (String × String)
deriving DecidableEq, Repr

/-- Outcome of `fetch_html`: the returned HTML (with the strategy that
produced it), or the `HTTPException(status, detail)` it raises. -/
inductive FetchOutcome
  | success (html : String) (used : Strat)
  | httpException (status : Nat) (detail : String)
deriving DecidableEq, Repr

/-- The acceptance check `if html and len(html) > 50` (app.py lines 190/199/208). -/
def viable (html : String) : Bool := (!html.isEmpty) && decide (50 < html.length)

/-- `str(last_exc)` where `last_exc` starts out as `None`. -/
def lastStr : Option String → String
  | none => "None"
  | some d => d

/-- Run the strategy sequence exactly as the three try-blocks of
`fetch_html` do: record the attempt, accept a viable body, remember a
raised exception in `last_exc`, and raise 502 after the list is spent. -/
def runStrats : Option String → List Attempt → List (Strat × StratResult) →
    FetchOutcome × List Attempt
  | lastExc, acc, [] =>
      (.httpException 502 ("Fetching failed. last=" ++ lastStr lastExc), acc)
  | lastExc, acc, (s, r) :: rest =>
      let acc' := acc ++ [⟨s, HEADERS⟩]
      match r with
      | .ok b => if viable b then (.success b s, acc') else runStrats lastExc acc' rest
      | .exc d => runStrats (some d) acc' rest

/-- The strategies `fetch_html` will try, in source order, with their
oracles: Playwright only when `USE_PLAYWRIGHT`, then httpx, then
cloudscraper. -/
def stratList (usePlaywright : Bool) (pw hx cs : StratResult) :
    List (Strat × StratResult) :=
  (if usePlaywright then [(Strat.rendering, pw)] else []) ++
    [(Strat.lightweight, hx), (Strat.challenge, cs)]

/-- The strategies enabled for a run, in the order the source tries them. -/
def enabledOrder (usePlaywright : Bool) : List Strat :=
  (if usePlaywright then [Strat.rendering] else []) ++
    [Strat.lightweight, Strat.challenge]

/-- `fetch_html(url)` (app.py lines 180-215), as a function of the
`USE_PLAYWRIGHT` flag and the three fetchers' behaviour at the URL.
Returns the outcome together with the ordered list of attempts made. -/
def fetch_html (usePlaywright : Bool) (pw hx cs : StratResult) :
    FetchOutcome × List Attempt :=
  runStrats none [] (stratList usePlaywright pw hx cs)

/-! ### General lemmas about the strategy loop -/

theorem viable_false_of_short (b : String) (h : b.length ≤ 50) :
    viable b = false := by
  have hd : decide (50 < b.length) = false := decide_eq_false (by omega)
  simp [viable, hd]

theorem runStrats_attempts (l : List (Strat × StratResult)) :
    ∀ (le : Option String) (acc : List Attempt), ∃ k,
      ((runStrats le acc l).2).map Attempt.strat =
        acc.map Attempt.strat ++ ((l.map Prod.fst).take k) := by
  induction l with
  | nil =>
      intro le acc
      exact ⟨0, by simp [runStrats]⟩
  | cons p rest ih =>
      intro le acc
      obtain ⟨s, r⟩ := p
      cases r with
      | ok b =>
          by_cases hv : viable b = true
          · exact ⟨1, by simp [runStrats, hv]⟩
          · obtain ⟨k, hk⟩ := ih le (acc ++ [⟨s, HEADERS⟩])
            refine ⟨k + 1, ?_⟩
            simp only [runStrats, Bool.not_eq_true] at *
            rw [if_neg (by simp [hv]), hk]
            simp [List.take_succ_cons]
      | exc d =>
          obtain ⟨k, hk⟩ := ih (some d) (acc ++ [⟨s, HEADERS⟩])
          refine ⟨k + 1, ?_⟩
          simp only [runStrats]
          rw [hk]
          simp [List.take_succ_cons]

theorem runStrats_exhausted (l : List (Strat × StratResult)) :
    ∀ (le : Option String) (acc : List Attempt) (st : Nat) (d : String),
      (runStrats le acc l).1 = .httpException st d →
      (runStrats le acc l).2 = acc ++ l.map (fun p => ⟨p.1, HEADERS⟩) := by
  induction l with
  | nil =>
      intro le acc st d _
      simp [runStrats]
  | cons p rest ih =>
      intro le acc st d h
      obtain ⟨s, r⟩ := p
      cases r with
      | ok b =>
          by_cases hv : viable b = true
          · simp [runStrats, hv] at h
          · simp only [runStrats] at h ⊢
            rw [if_neg (by simp [hv])] at h ⊢
            rw [ih _ _ _ _ h]
            simp
      | exc d' =>
          simp only [runStrats] at h ⊢
          rw [ih _ _ _ _ h]
          simp

theorem runStrats_headers (l : List (Strat × StratResult)) :
    ∀ (le : Option String) (acc : List Attempt) (a : Attempt),
      a ∈ (runStrats le acc l).2 → a ∈ acc ∨ a.headers = HEADERS := by
  induction l with
  | nil =>
      intro le acc a h
      exact Or.inl (by simpa [runStrats] using h)
  | cons p rest ih =>
      intro le acc a h
      obtain ⟨s, r⟩ := p
      have step : ∀ b : Attempt, b ∈ acc ++ [(⟨s, HEADERS⟩ : Attempt)] →
          b ∈ acc ∨ b.headers = HEADERS := by
        intro b hb
        rcases List.mem_append.mp hb with hb | hb
        · exact Or.inl hb
        · right
          have : b = (⟨s, HEADERS⟩ : Attempt) := by simpa using hb
          rw [this]
      cases r with
      | ok b =>
          by_cases hv : viable b = true
          · simp only [runStrats, hv, if_true] at h
            exact step a h
          · simp only [runStrats] at h
            rw [if_neg (by simp [hv])] at h
            rcases ih le (acc ++ [⟨s, HEADERS⟩]) a h with h' | h'
            · exact step a h'
            · exact Or.inr h'
      | exc d =>
          simp only [runStrats] at h
          rcases ih (some d) (acc ++ [⟨s, HEADERS⟩]) a h with h' | h'
          · exact step a h'
          · exact Or.inr h'

theorem runStrats_status (l : List (Strat × StratResult)) :
    ∀ (le : Option String) (acc : List Attempt),
      (∃ b u, (runStrats le acc l).1 = .success b u) ∨
      (∃ d, (runStrats le acc l).1 = .httpException 502 d) := by
  induction l with
  | nil =>
      intro le acc
      exact Or.inr ⟨_, rfl⟩
  | cons p rest ih =>
      intro le acc
      obtain ⟨s, r⟩ := p
      cases r with
      | ok b =>
          by_cases hv : viable b = true
          · exact Or.inl ⟨b, s, by simp [runStrats, hv]⟩
          · simpa only [runStrats, if_neg (by simp [hv] : ¬ viable b = true)]
              using ih le (acc ++ [⟨s, HEADERS⟩])
      | exc d =>
          simpa only [runStrats] using ih (some d) (acc ++ [⟨s, HEADERS⟩])

theorem stratList_fst (upw : Bool) (pw hx cs : StratResult) :
    (stratList upw pw hx cs).map Prod.fst = enabledOrder upw := by
  cases upw <;> rfl

/-- The attempts of any run form an initial segment of the enabled
strategy order (shared helper). -/
theorem fetch_attempts_take (upw : Bool) (pw hx cs : StratResult) :
    ∃ k, ((fetch_html upw pw hx cs).2).map Attempt.strat =
      (enabledOrder upw).take k := by
  obtain ⟨k, hk⟩ := runStrats_attempts (stratList upw pw hx cs) none []
  refine ⟨k, ?_⟩
  rw [fetch_html, hk, stratList_fst]
  simp

/-- A 61-character document body, above the 50-character viability minimum. -/
def longBody : String := "0123456789012345678901234567890123456789012345678901234567890"

/-! ## Claims C1, C2, C5, C6, C7, C8 about the orchestrator -/

/-- C1, counterexample: with the default configuration (`USE_PLAYWRIGHT`
on) and every fetcher returning a long valid body, the one and only
attempt is the Rendering (Playwright) strategy — the costlier Rendering
fetcher is invoked while the cheaper enabled Lightweight fetcher is still
untried, refuting the claimed ascending-cost order. -/
theorem C1_counterexample :
    fetch_html true (.ok longBody) (.ok longBody) (.ok longBody) =
      (.success longBody .rendering, [⟨.rendering, HEADERS⟩]) ∧
    stratCost Strat.lightweight < stratCost Strat.rendering := by
  constructor
  · rfl
  · decide

/-- C1, amended: the orchestrator tries the strategies in the fixed source
order Rendering (when `USE_PLAYWRIGHT` is enabled; the default) →
Lightweight → Challenge-Solving; the sequence of attempts made is always
an initial segment of `enabledOrder`, a later strategy being invoked only
after every earlier one was tried and failed. -/
theorem C1_amended (upw : Bool) (pw hx cs : StratResult) :
    ∃ k, ((fetch_html upw pw hx cs).2).map Attempt.strat =
      (enabledOrder upw).take k :=
  fetch_attempts_take upw pw hx cs

/-- C2, counterexample: when all three fetchers fail with ordinary
upstream errors, `fetch_html` raises `HTTPException(502, ...)` to its
caller instead of returning a classified failure value, refuting the
claim that ordinary upstream failures never surface as an exception. -/
theorem C2_counterexample :
    fetch_html true (.exc "timeout") (.exc "403 Forbidden") (.exc "connection refused") =
      (.httpException 502 "Fetching failed. last=connection refused",
       [⟨.rendering, HEADERS⟩, ⟨.lightweight, HEADERS⟩, ⟨.challenge, HEADERS⟩]) := by
  rfl

/-- C2, amended: every individual strategy failure is caught inside
`fetch_html` and never propagates mid-sequence — for all fetcher
behaviours the outcome is either a success or the single final
`HTTPException` with status 502; but that 502 is raised to the caller
when every strategy fails, rather than returned as a failure value. -/
theorem C2_amended (upw : Bool) (pw hx cs : StratResult) :
    (∃ b u, (fetch_html upw pw hx cs).1 = .success b u) ∨
    (∃ d, (fetch_html upw pw hx cs).1 = .httpException 502 d) :=
  runStrats_status (stratList upw pw hx cs) none []

/-- C5: a transport-successful response whose body is at most 50
characters (in particular a 10-character body) is never accepted as
success by any strategy; when every strategy returns such a body the
orchestrator reports the classified empty-response failure (the final 502
with no recorded exception), never `success`. -/
theorem C5_confirmed (upw : Bool) (b1 b2 b3 : String)
    (h1 : b1.length ≤ 50) (h2 : b2.length ≤ 50) (h3 : b3.length ≤ 50) :
    (fetch_html upw (.ok b1) (.ok b2) (.ok b3)).1 =
      .httpException 502 "Fetching failed. last=None" := by
  have v1 := viable_false_of_short b1 h1
  have v2 := viable_false_of_short b2 h2
  have v3 := viable_false_of_short b3 h3
  cases upw <;>
    simp [fetch_html, stratList, runStrats, v1, v2, v3, lastStr]

/-- Witness for C5 at a concrete 10-character body. -/
theorem C5_confirmed_witness :
    ("0123456789" : String).length ≤ 50 ∧
    (fetch_html true (.ok "0123456789") (.ok "0123456789") (.ok "0123456789")).1 =
      .httpException 502 "Fetching failed. last=None" :=
  ⟨by decide,
   C5_confirmed true "0123456789" "0123456789" "0123456789"
     (by decide) (by decide) (by decide)⟩

/-- C6: the orchestrator never reports overall exhaustion (the final 502)
while an enabled strategy is untried — whenever the outcome is the raised
`HTTPException`, the attempt log equals the full list of enabled
strategies in order; in particular, when the Lightweight fetcher always
fails with 403 and Playwright is enabled, the Rendering strategy was
attempted before giving up. -/
theorem C6_confirmed (upw : Bool) (pw hx cs : StratResult) (st : Nat) (d : String)
    (h : (fetch_html upw pw hx cs).1 = .httpException st d) :
    ((fetch_html upw pw hx cs).2).map Attempt.strat = enabledOrder upw := by
  have := runStrats_exhausted (stratList upw pw hx cs) none [] st d h
  rw [fetch_html, this]
  rw [List.nil_append, List.map_map]
  rw [show (Attempt.strat ∘ fun p : Strat × StratResult => (⟨p.1, HEADERS⟩ : Attempt))
        = Prod.fst from rfl]
  exact stratList_fst upw pw hx cs

/-- Witness for C6: Lightweight always answers 403, the other fetchers
also fail; the attempt log contains the Rendering strategy (tried before
the exhaustion report). -/
theorem C6_confirmed_witness :
    ((fetch_html true (.exc "err") (.exc "403 Forbidden") (.exc "err2")).2).map
        Attempt.strat = enabledOrder true ∧
    (((fetch_html true (.exc "err") (.exc "403 Forbidden")
        (.exc "err2")).2).map Attempt.strat).contains Strat.rendering = true :=
  ⟨C6_confirmed true (.exc "err") (.exc "403 Forbidden") (.exc "err2") 502
      "Fetching failed. last=err2" rfl,
   by rfl⟩

/-- C7, counterexample: in a run where the Lightweight fetcher fails with
403 (`Blocked`), it is attempted exactly once — the attempt immediately
after it is a different strategy — refuting the claimed
retry-with-backoff of the same strategy before escalation. -/
theorem C7_counterexample :
    ((fetch_html true (.exc "e1") (.exc "403 Forbidden") (.exc "e2")).2).map
        Attempt.strat = [.rendering, .lightweight, .challenge] ∧
    (((fetch_html true (.exc "e1") (.exc "403 Forbidden") (.exc "e2")).2).map
        Attempt.strat).count Strat.lightweight = 1 := by
  constructor <;> rfl

/-- C7, amended: there is no retry and no backoff — for every fetcher
behaviour, each strategy is attempted at most once per `fetch_html` run;
on any failure the orchestrator immediately moves to the next strategy. -/
theorem C7_amended (upw : Bool) (pw hx cs : StratResult) (s : Strat) :
    (((fetch_html upw pw hx cs).2).map Attempt.strat).count s ≤ 1 := by
  obtain ⟨k, hk⟩ := fetch_attempts_take upw pw hx cs
  rw [hk]
  calc ((enabledOrder upw).take k).count s ≤ (enabledOrder upw).count s :=
        (List.take_sublist k (enabledOrder upw)).count_le s
    _ ≤ 1 := by cases upw <;> cases s <;> decide

/-- C8, counterexample: in a run that performs several attempts, every
attempt — including two consecutive attempts against the same domain —
presents the identical header set `HEADERS`: the same identity is reused,
refuting fresh-identity acquisition and rotation on `Blocked`. -/
theorem C8_counterexample :
    ((fetch_html true (.exc "e1") (.exc "403 Forbidden") (.exc "e2")).2).map
        Attempt.headers = [HEADERS, HEADERS, HEADERS] := by
  rfl

/-- C8, amended: every attempt of every run presents the same fixed
identity, the constant `HEADERS` mapping; there is no identity pool and
no rotation. -/
theorem C8_amended (upw : Bool) (pw hx cs : StratResult) (a : Attempt)
    (h : a ∈ (fetch_html upw pw hx cs).2) : a.headers = HEADERS := by
  rcases runStrats_headers (stratList upw pw hx cs) none [] a h with h' | h'
  · simp at h'
  · exact h'

/-- Witness for C8 amended at a concrete run and attempt. -/
theorem C8_amended_witness :
    (⟨Strat.rendering, HEADERS⟩ : Attempt) ∈
      (fetch_html true (.exc "x") (.exc "y") (.exc "z")).2 ∧
    (⟨Strat.rendering, HEADERS⟩ : Attempt).headers = HEADERS :=
  ⟨by decide,
   C8_amended true (.exc "x") (.exc "y") (.exc "z") ⟨Strat.rendering, HEADERS⟩
     (by decide)⟩

/-! ## `reader_from_url` (app.py lines 407-431) and the `/reader` endpoint

`reader_from_url(url)` percent-decodes the URL, runs a host check whose
`HTTPException` is raised inside a `try` block guarded by
`except Exception: pass` (so the rejection is swallowed and has no
observable effect), then extracts slug and chapter with
`re.search(r"/reader/([^/]+)/(\d+)", decoded)` (falling back to
`/manga/` plus a trailing number) and calls the `reader` endpoint, which
fetches `f"{BASE}/reader/{slug}/{chapter}"`. -/

/-- Value of a hexadecimal digit, if any. -/
def hexVal (c : Char) : Option Nat :=
  if '0' ≤ c ∧ c ≤ '9' then some (c.toNat - '0'.toNat)
  else if 'a' ≤ c ∧ c ≤ 'f' then some (c.toNat - 'a'.toNat + 10)
  else if 'A' ≤ c ∧ c ≤ 'F' then some (c.toNat - 'A'.toNat + 10)
  else none

/-- `urllib.parse.unquote` on character lists (single-byte fragment:
`%XX` escapes decode to the code point `XX`; malformed escapes pass
through unchanged, as in Python). -/
def unquoteChars : List Char → List Char
  | [] => []
  | '%' :: a :: b :: rest =>
      match hexVal a, hexVal b with
      | some x, some y => Char.ofNat (16 * x + y) :: unquoteChars rest
      | _, _ => '%' :: unquoteChars (a :: b :: rest)
  | c :: rest => c :: unquoteChars rest

def unquote (s : String) : String := String.mk (unquoteChars s.toList)

/-- Does `pat` occur as a contiguous substring of `s` (Python `in`)? -/
def strHasSub (s pat : String) : Bool := go s.toList pat.toList
where
  go : List Char → List Char → Bool
    | [], p => p.isEmpty
    | l@(_ :: t), p => p.isPrefixOf l || go t p

/-- `urlparse(s).netloc`: the authority component, present when the URL
has `//` after the scheme colon (or at the start), up to the next
`/`, `?` or `#`. -/
def netlocOf (s : String) : String :=
  let l := s.toList
  let after :=
    if (['/', '/'] : List Char).isPrefixOf l then some (l.drop 2)
    else
      match l.span (fun c => c ≠ ':') with
      | (_, ':' :: rest) =>
          if (['/', '/'] : List Char).isPrefixOf rest
          then some (rest.drop 2) else none
      | _ => none
  match after with
  | none => ""
  | some t => String.mk (t.takeWhile (fun c => c ≠ '/' ∧ c ≠ '?' ∧ c ≠ '#'))

/-- The disallowed-host test of app.py line 415:
`parsed.netloc and "mangatek.com" not in parsed.netloc`.  When true the
code raises `HTTPException(400, "Only mangatek.com URLs allowed")` — but
that raise sits inside a `try` whose handler is `except Exception: pass`
(lines 413-418), so the rejection is swallowed. -/
def hostCheckFires (url : String) : Bool :=
  let n := netlocOf (unquote url)
  (!n.isEmpty) && (!strHasSub n "mangatek.com")

/-- Numeric value of a digit run (Python `int` on a digit string). -/
def natOfDigits (l : List Char) : Nat :=
  l.foldl (fun n c => 10 * n + (c.toNat - '0'.toNat)) 0

/-- Try to match `/reader/([^/]+)/(\d+)` at the head of `l`:
the literal `/reader/`, a maximal nonempty run of non-`/` characters,
a `/`, then a nonempty digit run (leftmost-greedy regex semantics). -/
def readerMatchAt (l : List Char) : Option (String × Nat) :=
  if ("/reader/".toList).isPrefixOf l then
    let r1 := l.drop 8
    let (slug, r2) := r1.span (fun c => c ≠ '/')
    if slug.isEmpty then none
    else
      match r2 with
      | '/' :: r3 =>
          let digs := r3.takeWhile Char.isDigit
          if digs.isEmpty then none
          else some (String.mk slug, natOfDigits digs)
      | _ => none
  else none

/-- Leftmost match of `/reader/([^/]+)/(\d+)` (`re.search`). -/
def searchReader : List Char → Option (String × Nat)
  | [] => none
  | c :: cs =>
      match readerMatchAt (c :: cs) with
      | some r => some r
      | none => searchReader cs

/-- Try to match `/manga/([^/]+)` at the head of `l`. -/
def mangaMatchAt (l : List Char) : Option String :=
  if ("/manga/".toList).isPrefixOf l then
    let slug := (l.drop 7).takeWhile (fun c => c ≠ '/')
    if slug.isEmpty then none else some (String.mk slug)
  else none

/-- Leftmost match of `/manga/([^/]+)` (`re.search`). -/
def searchManga : List Char → Option String
  | [] => none
  | c :: cs =>
      match mangaMatchAt (c :: cs) with
      | some r => some r
      | none => searchManga cs

/-- `re.search(r"/(\d+)(?:/?)$", decoded)`: a slash, a nonempty digit run
and an optional final slash at the end of the string; returns the number. -/
def trailingChapter (l : List Char) : Option Nat :=
  let r := l.reverse
  let r := match r with
    | '/' :: t => t
    | _ => r
  let digs := r.takeWhile Char.isDigit
  if digs.isEmpty then none
  else
    match r.drop digs.length with
    | '/' :: _ => some (natOfDigits digs.reverse)
    | _ => none

/-- Observable result of `reader_from_url`: a 400 rejection, or the call
into the `reader` endpoint with the extracted slug and chapter. -/
inductive RFUResult
  | badRequest (detail : String)
  | readerResult (slug : String) (chapter : Nat)
deriving DecidableEq, Repr

/-- `reader_from_url(url)` (app.py lines 407-431).  The host check's
`HTTPException` is swallowed by `except Exception: pass`, so control
always reaches the slug/chapter extraction. -/
def reader_from_url (url : String) : RFUResult :=
  let decoded := unquote url
  match searchReader decoded.toList with
  | some (slug, chap) => .readerResult slug chap
  | none =>
      match searchManga decoded.toList with
      | some slug =>
          match trailingChapter decoded.toList with
          | some n => .readerResult slug n
          | none => .badRequest "Could not extract slug/chapter from URL"
      | none => .badRequest "Could not extract slug/chapter from URL"

/-- The URL the `reader` endpoint fetches (app.py line 342):
`f"{BASE}/reader/{slug}/{chapter}"`. -/
def readerUpstreamUrl (slug : String) (chapter : Nat) : String :=
  BASE ++ "/reader/" ++ slug ++ "/" ++ toString chapter

/-- The upstream URL a `reader_from_url` call ends up fetching, when it
reaches the `reader` endpoint. -/
def reader_from_url_target (url : String) : Option String :=
  match reader_from_url url with
  | .readerResult s c => some (readerUpstreamUrl s c)
  | .badRequest _ => none

/-! ## Claims C3 and C9 -/

/-- C3, code bug: for a URL on a disallowed host the check of line 415
fires — the code raises `HTTPException(400)` — but that raise is caught
by the enclosing `except Exception: pass`, so the request is served (the
reader endpoint is invoked with the extracted slug and chapter) instead
of being refused. -/
theorem C3_code_bug :
    hostCheckFires "https://evil.com/reader/foo/1" = true ∧
    reader_from_url "https://evil.com/reader/foo/1" = .readerResult "foo" 1 := by
  constructor <;> rfl

/-- C9, counterexample: two URLs that differ only in the host component
(hosts `reader` and `mangatek.com`) and share the path `/reader/99/12`
are fetched as different upstream URLs, because the slug/chapter regex
scans the whole URL string and the host `reader` completes an earlier
`/reader/<seg>/<digits>` match. -/
theorem C9_counterexample :
    "https://reader/reader/99/12" = "https://" ++ "reader" ++ "/reader/99/12" ∧
    "https://mangatek.com/reader/99/12" =
      "https://" ++ "mangatek.com" ++ "/reader/99/12" ∧
    reader_from_url_target "https://reader/reader/99/12" =
      some "https://mangatek.com/reader/reader/99" ∧
    reader_from_url_target "https://mangatek.com/reader/99/12" =
      some "https://mangatek.com/reader/99/12" := by
  refine ⟨rfl, rfl, rfl, rfl⟩

/-- C9, amended: whatever the caller's URL, the upstream fetch target is
always rooted at the configured base host — it is `BASE` followed by
`/reader/<slug>/<chapter>` for the extracted values, never an URL rooted
at the caller's host; full host-independence of the target fails only in
the extraction step (see the counterexample). -/
theorem C9_amended (u t : String) (h : reader_from_url_target u = some t) :
    ∃ s c, reader_from_url u = .readerResult s c ∧
      t = BASE ++ "/reader/" ++ s ++ "/" ++ toString c := by
  unfold reader_from_url_target at h
  cases hr : reader_from_url u with
  | badRequest d => rw [hr] at h; cases h
  | readerResult s c =>
      rw [hr] at h
      exact ⟨s, c, rfl, by
        have := h
        simp only [Option.some.injEq] at this
        rw [← this, readerUpstreamUrl]⟩

/-- Witness for C9 amended at a concrete URL. -/
theorem C9_amended_witness :
    ∃ s c, reader_from_url "https://mangatek.com/reader/5/7" = .readerResult s c ∧
      ("https://mangatek.com/reader/5/7" : String) =
        BASE ++ "/reader/" ++ s ++ "/" ++ toString c :=
  C9_amended "https://mangatek.com/reader/5/7" "https://mangatek.com/reader/5/7" rfl

/-! ## The `/reader` endpoint's image pipeline (app.py lines 352-405)

Strategies 1 and 2 walk `img` tags, taking
`img.get("data-src") or img.get("data-lazy-src") or img.get("src")` and
keeping it when `src and not src.startswith("data:")`.  Strategy 3 runs
only when they found nothing and extends `images` with raw strings from
script text, with no `data:` filter.  The cleanup loop (lines 386-403)
then skips empty entries, strips whitespace, turns `//…` into `https://…`,
resolves `/…` against `BASE` via `urljoin`, keeps an entry when it
contains a known path key or looks like an image file name with a digit,
and deduplicates preserving first occurrence. -/

/-- `pat.toList.isPrefixOf`-based `str.startswith` (reduces in the kernel). -/
def strStarts (s pat : String) : Bool := pat.toList.isPrefixOf s.toList

/-- `str.endswith` on character lists. -/
def strEnds (s pat : String) : Bool := pat.toList.isSuffixOf s.toList

/-- Python `str.strip()`: drop whitespace at both ends. -/
def strTrim (s : String) : String :=
  String.mk (((s.toList.dropWhile Char.isWhitespace).reverse.dropWhile
    Char.isWhitespace).reverse)

/-- Python truthiness-based `a or b` on optional strings: an absent or
empty left operand yields the right one. -/
def pyOrStr : Option String → Option String → Option String
  | some s, b => if s.isEmpty then b else some s
  | none, b => b

/-- The attributes of one `img` tag the code reads. -/
structure ImgTag where
  dataSrc : Option String
  dataLazy : Option String
  src : Option String
deriving DecidableEq, Repr

/-- `img.get("data-src") or img.get("data-lazy-src") or img.get("src")`,
then `if src and not src.startswith("data:")` (app.py lines 361-363). -/
def keepImgSrc (t : ImgTag) : Option String :=
  match pyOrStr t.dataSrc (pyOrStr t.dataLazy t.src) with
  | none => none
  | some s => if (!s.isEmpty) && (!strStarts s "data:") then some s else none

/-- The sources collected from `img` tags by strategies 1/2. -/
def collectImgs (imgs : List ImgTag) : List String := imgs.filterMap keepImgSrc

/-- The path keys of the cleanup heuristic (app.py line 396). -/
def CLEAN_KEYS : List String :=
  ["/reader/", "/manga/", "/uploads/", "/covers/", "api.mangatek", "/images/"]

/-- The extensions of `\.(jpe?g|png|webp)(?:\?|$)` (app.py line 397). -/
def IMG_EXTS : List String := [".jpg", ".jpeg", ".png", ".webp"]

/-- `re.search(r'\.(jpe?g|png|webp)(?:\?|$)', src)`: one of the
extensions at the end of the string or followed by `?`. -/
def hasImageExt (s : String) : Bool :=
  IMG_EXTS.any (fun e => strEnds s e || strHasSub s (e ++ "?"))

/-- `re.search(r'\d', src)`. -/
def hasDigit (s : String) : Bool := s.toList.any Char.isDigit

/-- The normalization steps of the cleanup loop (app.py lines 391-395):
strip, prefix `https:` onto `//…`, then resolve `/…` against `BASE`
(`urljoin(BASE, src)` with the default base). -/
def normalizeSrc (src : String) : String :=
  let t := strTrim src
  let t := if strStarts t "//" then "https:" ++ t else t
  if strStarts t "/" then BASE ++ t else t

/-- The acceptance heuristic of the cleanup loop (app.py lines 396-399):
a known path key occurs in the entry, or it ends in an image extension
and contains a digit. -/
def acceptSrc (s : String) : Bool :=
  CLEAN_KEYS.any (fun k => strHasSub s k) || (hasImageExt s && hasDigit s)

/-- The per-entry body of the cleanup loop (app.py lines 388-399): skip
falsy entries, normalize, then keep only accepted entries; `none` means
the entry is dropped. -/
def normalizeAccept (src : String) : Option String :=
  if src.isEmpty then none
  else if acceptSrc (normalizeSrc src) then some (normalizeSrc src) else none

/-- The cleanup loop with its `seen` set (app.py lines 386-403):
deduplicates the accepted, normalized entries, keeping first occurrences
in order. -/
def cleanupAux (seen : List String) : List String → List String
  | [] => []
  | src :: rest =>
      match normalizeAccept src with
      | none => cleanupAux seen rest
      | some s =>
          if seen.contains s then cleanupAux seen rest
          else s :: cleanupAux (s :: seen) rest

def cleanupImages (images : List String) : List String := cleanupAux [] images

/-- The `images` list handed to the cleanup: the `img`-tag sources when
strategies 1/2 found any, otherwise the raw strings recovered from
scripts by strategy 3 (`find_json_arrays_in_text`, no `data:` filter). -/
def readerBaseList (tags : List ImgTag) (scriptFound : List String) : List String :=
  if (collectImgs tags).isEmpty then scriptFound else collectImgs tags

/-- The `images` value of the endpoint's JSON response. -/
def readerImages (tags : List ImgTag) (scriptFound : List String) : List String :=
  cleanupImages (readerBaseList tags scriptFound)

/-! ### Lemmas about the cleanup loop -/

theorem mem_cleanupAux_not_seen :
    ∀ (l : List String) (seen : List String) (a : String),
      a ∈ cleanupAux seen l → ¬ a ∈ seen := by
  intro l
  induction l with
  | nil => intro seen a h; simp [cleanupAux] at h
  | cons src rest ih =>
      intro seen a h
      simp only [cleanupAux] at h
      cases hn : normalizeAccept src with
      | none =>
          simp only [hn] at h
          exact ih seen a h
      | some s =>
          simp only [hn] at h
          by_cases hc : seen.contains s = true
          · rw [if_pos hc] at h
            exact ih seen a h
          · rw [if_neg hc] at h
            rcases List.mem_cons.mp h with h | h
            · intro hmem
              rw [h] at hmem
              exact hc (by simpa using hmem)
            · intro hmem
              exact ih (s :: seen) a h (List.mem_cons_of_mem s hmem)

theorem cleanupAux_nodup :
    ∀ (l : List String) (seen : List String), (cleanupAux seen l).Nodup := by
  intro l
  induction l with
  | nil => intro seen; simp [cleanupAux]
  | cons src rest ih =>
      intro seen
      simp only [cleanupAux]
      cases hn : normalizeAccept src with
      | none => simp only [hn]; exact ih seen
      | some s =>
          simp only [hn]
          by_cases hc : seen.contains s = true
          · rw [if_pos hc]; exact ih seen
          · rw [if_neg hc]
            refine List.nodup_cons.mpr ⟨?_, ih (s :: seen)⟩
            intro hmem
            exact mem_cleanupAux_not_seen rest (s :: seen) s hmem
              (List.mem_cons_self s seen)

theorem cleanupAux_sublist :
    ∀ (l : List String) (seen : List String),
      (cleanupAux seen l).Sublist (l.filterMap normalizeAccept) := by
  intro l
  induction l with
  | nil => intro seen; simp [cleanupAux]
  | cons src rest ih =>
      intro seen
      simp only [cleanupAux, List.filterMap_cons]
      cases hn : normalizeAccept src with
      | none => simp only [hn]; exact ih seen
      | some s =>
          simp only [hn]
          by_cases hc : seen.contains s = true
          · rw [if_pos hc]
            exact (ih seen).trans (List.sublist_cons_self s _)
          · rw [if_neg hc]
            exact (ih (s :: seen)).cons₂ s

theorem myStringData (a b : String) : (a ++ b).data = a.data ++ b.data := rfl

/-- A normalized entry never begins with `/`: entries starting `//`
received the `https:` prefix, entries starting `/` were resolved against
`BASE`, and remaining entries do not start with `/`. -/
theorem normalizeSrc_no_leading_slash (src : String) :
    (normalizeSrc src).toList.head? ≠ some '/' := by
  simp only [normalizeSrc]
  by_cases h2 : strStarts (strTrim src) "//" = true
  · rw [if_pos h2]
    rw [if_neg (by exact ne_true_of_eq_false rfl :
      ¬ strStarts ("https:" ++ strTrim src) "/" = true)]
    exact fun hh => by cases hh
  · rw [if_neg h2]
    by_cases h1 : strStarts (strTrim src) "/" = true
    · rw [if_pos h1]
      show (("https://mangatek.com" ++ strTrim src).toList).head? ≠ some '/'
      exact fun hh => by cases hh
    · rw [if_neg h1]
      intro hh
      apply h1
      show ("/".toList).isPrefixOf (strTrim src).toList = true
      cases hd : (strTrim src).toList with
      | nil => rw [hd] at hh; cases hh
      | cons c cs =>
          rw [hd] at hh
          have hc : c = '/' := by
            have := Option.some.injEq c '/' ▸ hh
            simpa using hh
          rw [hc]
          simp [List.isPrefixOf]

/-- `normalizeAccept` returns the normalized entry. -/
theorem normalizeAccept_eq (src s : String)
    (h : normalizeAccept src = some s) : s = normalizeSrc src := by
  unfold normalizeAccept at h
  by_cases he : src.isEmpty
  · rw [if_pos he] at h; cases h
  · rw [if_neg he] at h
    by_cases ha : acceptSrc (normalizeSrc src) = true
    · rw [if_pos ha] at h
      exact ((Option.some.injEq _ _).mp h).symm
    · rw [if_neg ha] at h; cases h

/-- An `img`-tag source kept by strategies 1/2 never starts with `data:`. -/
theorem keepImgSrc_not_data (t : ImgTag) (s : String)
    (h : keepImgSrc t = some s) : strStarts s "data:" = false := by
  unfold keepImgSrc at h
  cases hp : pyOrStr t.dataSrc (pyOrStr t.dataLazy t.src) with
  | none => rw [hp] at h; cases h
  | some s' =>
      simp only [hp] at h
      by_cases hc : ((!s'.isEmpty) && (!strStarts s' "data:")) = true
      · rw [if_pos hc] at h
        have hss : s' = s := (Option.some.injEq _ _).mp h
        have h2 : strStarts s' "data:" = false := by
          cases hb : strStarts s' "data:"
          · rfl
          · rw [hb] at hc; simp at hc
        rw [← hss]
        exact h2
      · rw [if_neg hc] at h; cases h

/-! ## Claim C10 -/

/-- C10, counterexample: with the `img`-tag strategies finding nothing
and the script strategy recovering a relative file name and a `data:`
URI, both survive the cleanup unchanged: the response contains an entry
that is not an absolute URL and an entry that is a `data:` URI. -/
theorem C10_counterexample :
    readerImages [] ["page1.jpg", "data:image/png;base64,a1.png"] =
      ["page1.jpg", "data:image/png;base64,a1.png"] ∧
    strStarts "page1.jpg" "http" = false ∧
    strStarts "data:image/png;base64,a1.png" "data:" = true := by
  refine ⟨rfl, rfl, rfl⟩

/-- C10, amended: the images list contains no duplicates and preserves
first-occurrence order (it is a sublist of the normalized accepted
entries in order); no entry begins with `/` (protocol-relative sources
got the `https:` prefix, root-relative ones were resolved against the
base host); and `img`-tag sources starting with `data:` are skipped —
but script-derived sources are not `data:`-filtered and relative sources
pass through unchanged, so not every entry is an absolute URL. -/
theorem C10_amended (tags : List ImgTag) (scriptFound : List String) :
    (readerImages tags scriptFound).Nodup ∧
    (readerImages tags scriptFound).Sublist
      ((readerBaseList tags scriptFound).filterMap normalizeAccept) ∧
    (∀ s ∈ readerImages tags scriptFound, s.toList.head? ≠ some '/') ∧
    (∀ t s, keepImgSrc t = some s → strStarts s "data:" = false) := by
  refine ⟨cleanupAux_nodup _ [], cleanupAux_sublist _ [], ?_, keepImgSrc_not_data⟩
  intro s hs
  have hmem : s ∈ (readerBaseList tags scriptFound).filterMap normalizeAccept :=
    (cleanupAux_sublist _ []).subset hs
  rcases List.mem_filterMap.mp hmem with ⟨src, _, hsrc⟩
  rw [normalizeAccept_eq src s hsrc]
  exact normalizeSrc_no_leading_slash src

/-- Witness for C10 amended at concrete inputs, the inner hypotheses
discharged by evaluation. -/
theorem C10_amended_witness :
    (readerImages [] ["page1.jpg"]).Nodup ∧
    ("page1.jpg" : String).toList.head? ≠ some '/' ∧
    strStarts "x1.png" "data:" = false :=
  ⟨(C10_amended [] ["page1.jpg"]).1,
   (C10_amended [] ["page1.jpg"]).2.2.1 "page1.jpg"
     ((show readerImages [] ["page1.jpg"] = ["page1.jpg"] from rfl) ▸
       List.mem_singleton_self "page1.jpg"),
   (C10_amended [] ["page1.jpg"]).2.2.2 ⟨none, none, some "x1.png"⟩ "x1.png" rfl⟩

/-! ## The response cache and the endpoint decorators (app.py lines 49, 222-225)

The cache itself is `cache = TTLCache(maxsize=1024, ttl=CACHE_TTL)` from
cachetools: entries carry an expiry instant `insertion time + ttl`; a
lookup before that instant returns the stored value, a lookup at or after
it is a miss.  `TTLStore` models this keyed store over an explicit clock. -/

structure TTLStore where
  ttl : Nat
  entries : List (String × String × Nat)

/-- Insert `k ↦ v` at time `now`, expiring at `now + ttl` (most recent
write wins). -/
def TTLStore.put (c : TTLStore) (now : Nat) (k v : String) : TTLStore :=
  { c with entries := (k, v, now + c.ttl) :: c.entries.filter (fun e => !(e.1 == k)) }

/-- Look `k` up at time `now`: the stored value while unexpired, a miss
afterwards. -/
def TTLStore.get (c : TTLStore) (now : Nat) (k : String) : Option String :=
  match c.entries.find? (fun e => e.1 == k) with
  | some (_, v, exp) => if now < exp then some v else none
  | none => none

/-- A `put` followed by a `get` of the same key within the TTL returns
the stored value. -/
theorem TTLStore.get_put_within (c : TTLStore) (now now' : Nat) (k v : String)
    (h : now' < now + c.ttl) : (c.put now k v).get now' k = some v := by
  simp [TTLStore.put, TTLStore.get, List.find?, h]

/-- A `get` of the key after the TTL elapsed is a miss. -/
theorem TTLStore.get_put_expired (c : TTLStore) (now now' : Nat) (k v : String)
    (h : now + c.ttl ≤ now') : (c.put now k v).get now' k = none := by
  have h' : ¬ now' < now + c.ttl := by omega
  simp [TTLStore.put, TTLStore.get, List.find?, h']

/-! ### Decorator wiring of the endpoints

In app.py the decorators are stacked

```
@cached(cache)
@limiter.limit(RATE_LIMIT)
@app.get("/manga-list")
async def manga_list(...)
```

and Python applies them bottom-up: `app.get(...)` runs first, registers
the *undecorated* function in the route table and returns it unchanged
(FastAPI's route decorator), after which `limiter.limit` and `cached`
wrap only the module-level name.  So the handler FastAPI serves never
consults the cache.  We model the handler over the state relevant to one
fixed request repeated twice within the TTL: the cache entry for its key
and a counter of upstream fetches. -/

structure ServeSt where
  cachedVal : Option String
  fetchCount : Nat
deriving DecidableEq, Repr

/-- A request handler: maps the serving state to the new state and the
response body. -/
def Handler : Type := ServeSt → ServeSt × String

/-- The body of `manga_list` (app.py lines 225-276): always performs an
upstream fetch via `fetch_html` and builds the response. -/
def manga_list_bare : Handler := fun st =>
  ({ st with fetchCount := st.fetchCount + 1 }, "manga-list-payload")

/-- `cached(cache)` (cachetools): serve an unexpired entry from the
cache, otherwise call through and store the result. -/
def cachedDec (f : Handler) : Handler := fun st =>
  match st.cachedVal with
  | some v => (st, v)
  | none =>
      let r := f st
      ({ r.1 with cachedVal := some r.2 }, r.2)

/-- `limiter.limit(RATE_LIMIT)`: rate limiting, transparent to cache and
fetch behaviour. -/
def limitDec (f : Handler) : Handler := f

/-- `app.get(path)`: register the handler in the route table and hand it
back unchanged. -/
def appGet (routes : List (String × Handler)) (path : String) (f : Handler) :
    List (String × Handler) × Handler := ((path, f) :: routes, f)

/-- The decorator stack of `manga_list` applied in Python's bottom-up
order: returns the final route table and the module-level binding. -/
def manga_list_registration : List (String × Handler) × Handler :=
  let r1 := appGet [] "/manga-list" manga_list_bare
  let f2 := limitDec r1.2
  let f3 := cachedDec f2
  (r1.1, f3)

/-- The handler FastAPI actually serves for `/manga-list`: the one in the
route table. -/
def servedHandler : Handler :=
  match manga_list_registration.1 with
  | (_, h) :: _ => h
  | [] => fun st => (st, "")

/-- The fully decorated module-level binding (what `@cached` produced). -/
def moduleHandler : Handler := manga_list_registration.2

/-- Serve the same request twice in a row (within the TTL) and observe
the final state. -/
def serveTwice (h : Handler) : ServeSt :=
  let st1 := (h ⟨none, 0⟩).1
  (h st1).1

/-! ## Claim C4 -/

/-- C4, code bug: serving the same request twice within the TTL through
the handler FastAPI registered performs two upstream fetches and never
populates the cache — the `@cached(cache)` wrapper is applied above
`@app.get`, so the route table holds the uncached function; had the
decorated binding been registered, the second request would have been a
cache hit (one fetch). -/
theorem C4_code_bug :
    (serveTwice servedHandler).fetchCount = 2 ∧
    (serveTwice servedHandler).cachedVal = none ∧
    (serveTwice moduleHandler).fetchCount = 1 := by
  refine ⟨rfl, rfl, rfl⟩

end Mangatek
